import Mathlib

/-!
Verification development for a conversational-assistant memory system.

The SQL memory layer (hierarchical-vector-schema.sql and database-schema.sql)
and the TypeScript chat layer (components/chat.tsx, app/api/chat/route.ts) are
embedded shallowly.  pgvector's cosine-distance operator is modelled as an
abstract distance function parameter: every theorem quantifies over it, so the
results hold for the actual cosine distance in particular.  SQL tables are
lists of rows; a SQL query of shape WHERE / ORDER BY / LIMIT becomes
filter / insertionSort / take.  Components that live only in the Python
backend (absent from the repository snapshot) are modelled from the spec and
marked as such in their doc comments.
-/

namespace MemorySchema

/-- A pgvector embedding (dimension 384 in the schema), modelled as a list of
rationals. -/
abbrev Embedding := List ℚ

/-- The cosine-distance operator of pgvector, modelled abstractly. -/
abbrev Dist := Embedding → Embedding → ℚ

/-- Row of public.user_memory_vectors (hierarchical-vector-schema.sql). -/
structure UserMemoryRow where
  id : Nat
  user_id : Nat
  memory_type : String
  content : String
  source_conversation_id : Option String
  created_at : Nat
  updated_at : Nat
  importance_score : ℚ
  access_count : Nat
  embedding : Embedding
  deriving DecidableEq

/-- Row of public.conversation_memory_vectors (hierarchical-vector-schema.sql). -/
structure ConversationMemoryRow where
  id : Nat
  user_id : Nat
  conversation_id : String
  message_id : Option Nat
  content : String
  role : String
  turn_number : Option Nat
  created_at : Nat
  embedding : Embedding
  deriving DecidableEq

/-- Row of public.conversation_summaries (hierarchical-vector-schema.sql). -/
structure ConversationSummaryRow where
  id : Nat
  user_id : Nat
  conversation_id : String
  title : Option String
  summary : Option String
  key_topics : List String
  message_count : Nat
  start_time : Nat
  last_activity : Nat
  summary_embedding : Embedding
  deriving DecidableEq

/-- ORDER BY distance-to-query ASC, LIMIT lim: sort the rows by ascending
distance of their embedding to the query, then keep the first lim. -/
def rankByDistance {α : Type} [DecidableEq α] (key : α → Embedding) (d : Dist)
    (q : Embedding) (lim : Nat) (rows : List α) : List α :=
  (rows.insertionSort (fun a b => d (key a) q ≤ d (key b) q)).take lim

/-- search_user_memory (hierarchical-vector-schema.sql, lines 88-105):
WHERE user_id = target AND memory_type = ANY(memory_types)
  AND embedding distance to query < 1 - match_threshold
ORDER BY distance ASC LIMIT least(match_count, 50). -/
def search_user_memory (d : Dist) (query_embedding : Embedding)
    (target_user_id : Nat) (memory_types : List String)
    (match_threshold : ℚ) (match_count : Nat)
    (table : List UserMemoryRow) : List UserMemoryRow :=
  rankByDistance (fun r => r.embedding) d query_embedding (min match_count 50)
    (table.filter (fun r =>
      r.user_id == target_user_id &&
      memory_types.contains r.memory_type &&
      decide (d r.embedding query_embedding < 1 - match_threshold)))

/-- search_conversation_memory (hierarchical-vector-schema.sql, lines 108-125):
same shape, additionally scoped to one conversation, LIMIT least(count, 20). -/
def search_conversation_memory (d : Dist) (query_embedding : Embedding)
    (target_user_id : Nat) (target_conversation_id : String)
    (match_threshold : ℚ) (match_count : Nat)
    (table : List ConversationMemoryRow) : List ConversationMemoryRow :=
  rankByDistance (fun r => r.embedding) d query_embedding (min match_count 20)
    (table.filter (fun r =>
      r.user_id == target_user_id &&
      r.conversation_id == target_conversation_id &&
      decide (d r.embedding query_embedding < 1 - match_threshold)))

/-- search_conversation_summaries (hierarchical-vector-schema.sql, lines
128-143): ranked over summary_embedding, LIMIT least(count, 10). -/
def search_conversation_summaries (d : Dist) (query_embedding : Embedding)
    (target_user_id : Nat) (match_threshold : ℚ) (match_count : Nat)
    (table : List ConversationSummaryRow) : List ConversationSummaryRow :=
  rankByDistance (fun r => r.summary_embedding) d query_embedding
    (min match_count 10)
    (table.filter (fun r =>
      r.user_id == target_user_id &&
      decide (d r.summary_embedding query_embedding < 1 - match_threshold)))

/-- The row-level effect of update_memory_access on the matching row:
SET access_count = access_count + 1, updated_at = NOW(),
    importance_score = LEAST(1.0, importance_score + 0.1). -/
def touchMemoryRow (now : Nat) (r : UserMemoryRow) : UserMemoryRow :=
  { r with
    access_count := r.access_count + 1
    updated_at := now
    importance_score := min 1 (r.importance_score + 1/10) }

/-- update_memory_access (hierarchical-vector-schema.sql, lines 146-156):
UPDATE user_memory_vectors SET ... WHERE id = memory_id.  Rows whose id
differs are left untouched; a missing id updates zero rows and is no error. -/
def update_memory_access (memory_id : Nat) (now : Nat)
    (table : List UserMemoryRow) : List UserMemoryRow :=
  table.map (fun r => if r.id == memory_id then touchMemoryRow now r else r)

/-- The whole three-table store of hierarchical-vector-schema.sql. -/
structure MemoryDB where
  user_memory_vectors : List UserMemoryRow
  conversation_memory_vectors : List ConversationMemoryRow
  conversation_summaries : List ConversationSummaryRow
  deriving DecidableEq

/-- update_memory_access at the level of the whole store: the UPDATE statement
names only the user_memory_vectors table. -/
def db_update_memory_access (memory_id : Nat) (now : Nat) (db : MemoryDB) :
    MemoryDB :=
  { db with
    user_memory_vectors := update_memory_access memory_id now db.user_memory_vectors }

/-- SQL equality on nullable uuid values: comparison with NULL is never true. -/
def sqlEqUuid (a b : Option Nat) : Bool :=
  match a, b with
  | some x, some y => x == y
  | _, _ => false

/-- Row of public.messages (database-schema.sql, lines 77-87). -/
structure MessageRow where
  id : Nat
  conversation_id : Nat
  user_id : Nat
  content : String
  role : String
  created_at : Nat
  embedding : Option Embedding
  deriving DecidableEq

/-- Result row of search_similar_messages: the SELECT list projects the row
and derives similarity = 1 - (embedding distance to query). -/
structure MessageSearchResult where
  id : Nat
  conversation_id : Nat
  content : String
  role : String
  created_at : Nat
  similarity : ℚ
  deriving DecidableEq

/-- The SELECT-list projection of search_similar_messages. -/
def msgToResult (d : Dist) (q : Embedding) (m : MessageRow) :
    MessageSearchResult :=
  { id := m.id
    conversation_id := m.conversation_id
    content := m.content
    role := m.role
    created_at := m.created_at
    similarity := 1 - d (m.embedding.getD []) q }

/-- search_similar_messages (database-schema.sql, lines 225-255), before the
SELECT-list projection: WHERE (target_user_id IS NULL OR user_id = target)
AND embedding IS NOT NULL AND 1 - distance > match_threshold
ORDER BY distance ASC LIMIT match_count. -/
def search_similar_messages_rows (d : Dist) (q : Embedding)
    (match_threshold : ℚ) (match_count : Nat) (target_user_id : Option Nat)
    (table : List MessageRow) : List MessageRow :=
  rankByDistance (fun m => m.embedding.getD []) d q match_count
    (table.filter (fun m =>
      (target_user_id.isNone || sqlEqUuid (some m.user_id) target_user_id) &&
      m.embedding.isSome &&
      decide (1 - d (m.embedding.getD []) q > match_threshold)))

/-- search_similar_messages (database-schema.sql, lines 225-255). -/
def search_similar_messages (d : Dist) (q : Embedding) (match_threshold : ℚ)
    (match_count : Nat) (target_user_id : Option Nat)
    (table : List MessageRow) : List MessageSearchResult :=
  (search_similar_messages_rows d q match_threshold match_count target_user_id
    table).map (msgToResult d q)

/-- Row of public.knowledge_base (database-schema.sql, lines 164-177); its
user_id column is nullable (global knowledge entries). -/
structure KnowledgeBaseRow where
  id : Nat
  user_id : Option Nat
  title : String
  content : String
  source_type : Option String
  source_id : Option String
  tags : List String
  embedding : Option Embedding
  created_at : Nat
  updated_at : Nat
  deriving DecidableEq

/-- The ownership part of the WHERE clause of search_knowledge_base:
target_user_id IS NULL OR kb.user_id = target_user_id OR kb.user_id IS NULL. -/
def kbUserFilter (target_user_id : Option Nat) (r : KnowledgeBaseRow) : Bool :=
  target_user_id.isNone || sqlEqUuid r.user_id target_user_id || r.user_id.isNone

/-- search_knowledge_base (database-schema.sql, lines 258-290), before the
SELECT-list projection: the ownership filter above, embedding IS NOT NULL,
1 - distance > match_threshold, ORDER BY distance ASC LIMIT match_count. -/
def search_knowledge_base_rows (d : Dist) (q : Embedding)
    (match_threshold : ℚ) (match_count : Nat) (target_user_id : Option Nat)
    (table : List KnowledgeBaseRow) : List KnowledgeBaseRow :=
  rankByDistance (fun r => r.embedding.getD []) d q match_count
    (table.filter (fun r =>
      kbUserFilter target_user_id r &&
      r.embedding.isSome &&
      decide (1 - d (r.embedding.getD []) q > match_threshold)))

/-- Result row of search_knowledge_base. -/
structure KnowledgeBaseResult where
  id : Nat
  title : String
  content : String
  source_type : Option String
  tags : List String
  created_at : Nat
  similarity : ℚ
  deriving DecidableEq

/-- The SELECT-list projection of search_knowledge_base. -/
def kbToResult (d : Dist) (q : Embedding) (r : KnowledgeBaseRow) :
    KnowledgeBaseResult :=
  { id := r.id
    title := r.title
    content := r.content
    source_type := r.source_type
    tags := r.tags
    created_at := r.created_at
    similarity := 1 - d (r.embedding.getD []) q }

/-- search_knowledge_base (database-schema.sql, lines 258-290). -/
def search_knowledge_base (d : Dist) (q : Embedding) (match_threshold : ℚ)
    (match_count : Nat) (target_user_id : Option Nat)
    (table : List KnowledgeBaseRow) : List KnowledgeBaseResult :=
  (search_knowledge_base_rows d q match_threshold match_count target_user_id
    table).map (kbToResult d q)

/-- The UNIQUE constraint on conversation_summaries.conversation_id
(hierarchical-vector-schema.sql, line 41): all stored conversation ids are
pairwise distinct. -/
def summariesUnique (table : List ConversationSummaryRow) : Prop :=
  (table.map (fun r => r.conversation_id)).Nodup

/-- At most one summary row per (user, conversation) pair. -/
def atMostOnePerUserConv (table : List ConversationSummaryRow) : Prop :=
  ∀ u c, (table.countP
    (fun r => r.user_id == u && r.conversation_id == c)) ≤ 1

/-- Modelled from the spec: the summary-creating operation is in the Python
backend, absent from the repository snapshot; per §3 a summary row is created
on the first summarization pass, and the store enforces the schema's UNIQUE
constraint on conversation_id by rejecting a duplicate key. -/
def insertSummary (r : ConversationSummaryRow)
    (table : List ConversationSummaryRow) :
    Except String (List ConversationSummaryRow) :=
  if table.any (fun s => s.conversation_id == r.conversation_id) then
    Except.error "duplicate key value violates unique constraint"
  else
    Except.ok (table ++ [r])

/-- N calls of update_memory_access with the given sequence of call times. -/
def iterate_memory_access (memory_id : Nat) (nows : List Nat)
    (table : List UserMemoryRow) : List UserMemoryRow :=
  nows.foldl (fun t now => update_memory_access memory_id now t) table

/-- The row-level effect of N calls of update_memory_access on the matching
row. -/
def foldTouch (nows : List Nat) (r : UserMemoryRow) : UserMemoryRow :=
  nows.foldl (fun s now => touchMemoryRow now s) r

/-- Modelled from the spec: the summary-updating operation is in the Python
backend, absent from the repository snapshot; per §3 it is keyed by the
conversation id and increments message_count, replaces the summary text and
refreshes last_activity. -/
def updateSummary (conversation_id : String) (newSummary : String)
    (newEmbedding : Embedding) (now : Nat)
    (table : List ConversationSummaryRow) : List ConversationSummaryRow :=
  table.map (fun s =>
    if s.conversation_id == conversation_id then
      { s with
        summary := some newSummary
        summary_embedding := newEmbedding
        message_count := s.message_count + 1
        last_activity := now }
    else s)

end MemorySchema

namespace ChatFrontend

/-- components/chat.tsx, line 133:
const useGmailAgent = agentMode && selectedApps.includes("Gmail"). -/
def useGmailAgent (agentMode : Bool) (selectedApps : List String) : Bool :=
  agentMode && selectedApps.contains "Gmail"

/-- The request body built by handleSubmit (chat.tsx, lines 135-141). -/
structure ChatRequestBody where
  message : String
  conversation_id : String
  agent_mode : Bool
  selected_apps : List String
  use_gmail_agent : Bool
  deriving DecidableEq

/-- chat.tsx, lines 133-141: the body handleSubmit sends to /api/chat. -/
def buildRequestBody (userMessageContent : String)
    (currentConversationId : String) (agentMode : Bool)
    (selectedApps : List String) : ChatRequestBody :=
  { message := userMessageContent
    conversation_id := currentConversationId
    agent_mode := agentMode
    selected_apps := selectedApps
    use_gmail_agent := useGmailAgent agentMode selectedApps }

/-- A row of the messages list that chat.tsx appends to (the DBMessage shape);
metadata is reduced to its one used field, metadata.type. -/
structure DBMessage where
  id : String
  conversation_id : String
  user_id : String
  content : String
  role : String
  created_at : Nat
  metadata_type : Option String
  deriving DecidableEq

/-- Outcome of the fetch to /api/chat as observed by handleSubmit: a parsed ok
response (data.response, data.type), a non-ok response (statusText and body
text, which handleSubmit turns into a thrown Error), or a thrown exception. -/
inductive FetchOutcome where
  | ok (response : String) (type : Option String)
  | notOk (statusText : String) (errorData : String)
  | exn (message : String)
  deriving DecidableEq

/-- chat.tsx, lines 183-200 (the catch branch of handleSubmit): the assistant
message shown to the user when anything thrown reaches the catch block.  Its
content is a fixed apology; the exception text goes only to console.error. -/
def handleSubmitErrorMessage (conversationId userId : String) (now : Nat) :
    DBMessage :=
  { id := "error-" ++ toString now
    conversation_id := conversationId
    user_id := userId
    content := "Sorry, I encountered an error processing your request. Please try again."
    role := "assistant"
    created_at := now
    metadata_type := some "error" }

/-- chat.tsx, lines 154-200: the assistant message handleSubmit appends for a
given fetch outcome.  A non-ok response throws (line 161) and lands in the
same catch block as a plain exception. -/
def handleSubmitAssistantMessage (conversationId userId : String) (now : Nat) :
    FetchOutcome → DBMessage
  | FetchOutcome.ok response ty =>
    { id := "server-" ++ toString now
      conversation_id := conversationId
      user_id := userId
      content := response
      role := "assistant"
      created_at := now
      metadata_type := ty }
  | FetchOutcome.notOk _ _ => handleSubmitErrorMessage conversationId userId now
  | FetchOutcome.exn _ => handleSubmitErrorMessage conversationId userId now

/-- Outcome of the proxied call to the Python backend as observed by the POST
handler of app/api/chat/route.ts. -/
inductive BackendOutcome where
  | ok (body : String)
  | httpError (status : Nat) (errorText : String)
  | exn (message : String)
  deriving DecidableEq

/-- A JSON response of the route handler: HTTP status plus body text. -/
structure ApiResponse where
  status : Nat
  body : String
  deriving DecidableEq

/-- app/api/chat/route.ts, POST (lines 6-54): invalid messages give 400,
a missing authorization header gives 401, a backend error status is forwarded
with the fixed body "Backend service error" (the backend's error text goes
only to console.error), any exception gives the fixed 500 body. -/
def POST (hasValidMessages : Bool) (authorization : Option String)
    (backend : BackendOutcome) : ApiResponse :=
  if !hasValidMessages then { status := 400, body := "Invalid messages" }
  else
    match authorization with
    | none => { status := 401, body := "Authorization header required" }
    | some _ =>
      match backend with
      | BackendOutcome.ok body => { status := 200, body := body }
      | BackendOutcome.httpError st _ =>
        { status := st, body := "Backend service error" }
      | BackendOutcome.exn _ =>
        { status := 500, body := "Internal server error" }

end ChatFrontend

namespace TurnCore

/-- The closed set of tool-backed services (§4.3). -/
inductive Service where
  | gmail
  | calendar
  | docs
  | notion
  | github
  deriving DecidableEq

/-- The wire name of a service. -/
def Service.wireName : Service → String
  | Service.gmail => "gmail"
  | Service.calendar => "calendar"
  | Service.docs => "docs"
  | Service.notion => "notion"
  | Service.github => "github"

/-- Modelled from the spec: the keyword vocabulary of each service used by the
intent router (§4.3, e.g. email/inbox/unread for gmail,
meeting/schedule/calendar for calendar); the Python backend implementing the
router is not part of the repository snapshot. -/
def serviceKeywords : Service → List String
  | Service.gmail => [ "email", "inbox", "unread", "gmail" ]
  | Service.calendar => [ "meeting", "schedule", "calendar" ]
  | Service.docs => [ "document", "docs", "write up" ]
  | Service.notion => [ "notion", "notes", "workspace" ]
  | Service.github => [ "github", "repository", "commit" ]

/-- Occurrence of a keyword inside the message text. -/
def containsKeyword (message keyword : String) : Bool :=
  (message.splitOn keyword).length > 1

/-- Lexical intent detection: the message matches a service's vocabulary. -/
def matchesVocabulary (message : String) (s : Service) : Bool :=
  (serviceKeywords s).any (fun k => containsKeyword message k)

/-- Modelled from the spec: the fixed priority order over services used as the
final tie-break (§4.3). -/
def servicePriority : List Service :=
  [ Service.gmail, Service.calendar, Service.docs, Service.notion,
    Service.github ]

/-- Modelled from the spec: the intent router (§4.3).  The agent-mode flag is
binary and authoritative: when it is false the state is SIMPLE and no service
is ever selected.  When it is true, classification is constrained to the
caller's allow-list when that list is non-empty, uses keyword detection over
the message, and falls back to no-app (none); ties resolve by the fixed
priority order. -/
def routeIntent (agentModeEnabled : Bool) (message : String)
    (allowedApps : List String) : Option Service :=
  if agentModeEnabled then
    (servicePriority.filter (fun s =>
      (allowedApps.isEmpty || allowedApps.contains s.wireName) &&
      matchesVocabulary message s)).head?
  else none

/-- The result shape of the turn-processing entrypoint (§6). -/
structure TurnResult where
  text : String
  serviceUsed : Option String
  status : String
  deriving DecidableEq

/-- Modelled from the spec: processTurn (§6), with the language-model and the
tool-backed agents abstracted as answer functions; the Python backend
implementing it is not part of the repository snapshot.  A turn routed to
no-app is a direct completion with serviceUsed = null; a turn routed to a
service dispatches exactly that service's agent. -/
def processTurn (message userId conversationId : String)
    (agentModeEnabled : Bool) (allowedApps : List String)
    (directAnswer : String) (agentAnswer : Service → String) : TurnResult :=
  match routeIntent agentModeEnabled message allowedApps with
  | none => { text := directAnswer, serviceUsed := none, status := "success" }
  | some s =>
    { text := agentAnswer s
      serviceUsed := some s.wireName
      status := "success" }

/-- The set of tool-backed agents a turn dispatches: exactly the routed
service, none when routed to no-app. -/
def dispatchedAgents (message : String) (agentModeEnabled : Bool)
    (allowedApps : List String) : List Service :=
  (routeIntent agentModeEnabled message allowedApps).toList

end TurnCore

namespace Assembler

/-- Total character length of a list of context items. -/
def totalLen (l : List String) : Nat := (l.map String.length).sum

/-- Character-level truncation of one string. -/
def strTake (s : String) (k : Nat) : String := String.mk (s.data.take k)

/-- Modelled from the spec: hard truncation of a single oversized item to the
budget, ending in an explicit truncation marker (§4.2). -/
def hardTruncate (budget : Nat) (marker : String) (s : String) : String :=
  strTake s (budget - marker.length) ++ marker

/-- The greedy per-tier fit: the longest item run that fits the tier budget
(stopping at the first item that does not fit, so kept items form a ranked
run from the top). -/
def takeWithin (budget : Nat) : List String → List String
  | [] => []
  | s :: rest =>
    if s.length ≤ budget then s :: takeWithin (budget - s.length) rest
    else []

/-- The outcome of the Context Assembler's merge: what survives of each tier,
and whether the single-oversized-top-item hard truncation fired. -/
structure Assembly where
  kept1 : List String
  kept2 : List String
  kept3 : List String
  hardTruncated : Bool
  deriving DecidableEq

/-- Cross-tier reconciliation under the total budget: drop tier 3 first, then
tier 2; tier 1 is left whole here (its own fit already respects the total
budget). -/
def mergeTiers (totalBudget : Nat) (k1 k2 k3 : List String) : Assembly :=
  if totalLen k1 + totalLen k2 + totalLen k3 ≤ totalBudget then
    { kept1 := k1, kept2 := k2, kept3 := k3, hardTruncated := false }
  else if totalLen k1 + totalLen k2 ≤ totalBudget then
    { kept1 := k1, kept2 := k2, kept3 := [], hardTruncated := false }
  else
    { kept1 := k1, kept2 := [], kept3 := [], hardTruncated := false }

/-- Modelled from the spec: the Context Assembler (§4.2); the Python backend
implementing it is not part of the repository snapshot.  Tiers arrive ranked
(tier 1 = current conversation, tier 2 = user memory, tier 3 = summaries of
other conversations).  Each tier contributes up to its per-tier character
budget (capped by the total); when even the single top tier-1 match exceeds
the total budget, that one item is hard-truncated with an explicit marker and
nothing else is included; otherwise lower-precedence tiers are dropped first
when the combined contribution would exceed the total budget. -/
def assembleParts (totalBudget b1 b2 b3 : Nat) (marker : String)
    (t1 t2 t3 : List String) : Assembly :=
  match t1 with
  | top :: _ =>
    if totalBudget < top.length then
      { kept1 := [hardTruncate totalBudget marker top]
        kept2 := []
        kept3 := []
        hardTruncated := true }
    else
      mergeTiers totalBudget (takeWithin (min b1 totalBudget) t1)
        (takeWithin b2 t2) (takeWithin b3 t3)
  | [] =>
    mergeTiers totalBudget [] (takeWithin b2 t2) (takeWithin b3 t3)

/-- Concatenation of the kept items into the single bounded context string. -/
def joinAll (l : List String) : String := l.foldr (fun s t => s ++ t) ""

/-- Modelled from the spec: the Context Assembler's output string (§4.2). -/
def assembleContext (totalBudget b1 b2 b3 : Nat) (marker : String)
    (t1 t2 t3 : List String) : String :=
  let a := assembleParts totalBudget b1 b2 b3 marker t1 t2 t3
  joinAll (a.kept1 ++ a.kept2 ++ a.kept3)

end Assembler

namespace SampleData

open MemorySchema

/-- A concrete distance function for evaluation: everything at distance 0. -/
def dZero : Dist := fun _ _ => 0

/-- A concrete distance function for evaluation: the distance of a row to any
query is read off the head of the row's embedding. -/
def dHead : Dist := fun e _ => e.headD 0

/-- A concrete user-memory row. -/
def um1 : UserMemoryRow :=
  { id := 1
    user_id := 7
    memory_type := "fact"
    content := "likes tea"
    source_conversation_id := none
    created_at := 0
    updated_at := 0
    importance_score := 1/2
    access_count := 0
    embedding := [0] }

/-- A concrete user-memory row of another user. -/
def um2 : UserMemoryRow :=
  { id := 2
    user_id := 8
    memory_type := "fact"
    content := "likes coffee"
    source_conversation_id := none
    created_at := 0
    updated_at := 0
    importance_score := 1/2
    access_count := 3
    embedding := [0] }

/-- A concrete conversation-memory row. -/
def cm1 : ConversationMemoryRow :=
  { id := 1
    user_id := 7
    conversation_id := "c1"
    message_id := none
    content := "hello"
    role := "user"
    turn_number := some 1
    created_at := 0
    embedding := [0] }

/-- A concrete conversation-summary row. -/
def cs1 : ConversationSummaryRow :=
  { id := 1
    user_id := 7
    conversation_id := "c1"
    title := some "t"
    summary := some "s"
    key_topics := []
    message_count := 1
    start_time := 0
    last_activity := 0
    summary_embedding := [0] }

/-- A concrete conversation-summary row for a second conversation. -/
def cs2 : ConversationSummaryRow :=
  { id := 2
    user_id := 7
    conversation_id := "c2"
    title := none
    summary := none
    key_topics := []
    message_count := 0
    start_time := 0
    last_activity := 0
    summary_embedding := [0] }

/-- A concrete message row. -/
def msg1 : MessageRow :=
  { id := 1
    conversation_id := 1
    user_id := 7
    content := "hi"
    role := "user"
    created_at := 0
    embedding := some [0] }

/-- A concrete knowledge-base row with a NULL owner (a global entry). -/
def kb1 : KnowledgeBaseRow :=
  { id := 1
    user_id := none
    title := "t"
    content := "c"
    source_type := none
    source_id := none
    tags := []
    embedding := some [0]
    created_at := 0
    updated_at := 0 }

/-- A concrete three-table store. -/
def db1 : MemoryDB :=
  { user_memory_vectors := [um1]
    conversation_memory_vectors := [cm1]
    conversation_summaries := [cs1] }

end SampleData

namespace MemorySchema

lemma rankByDistance_pairwise {α : Type} [DecidableEq α] (key : α → Embedding)
    (d : Dist) (q : Embedding) (lim : Nat) (rows : List α) :
    (rankByDistance key d q lim rows).Pairwise
      (fun a b => d (key a) q ≤ d (key b) q) := by
  haveI : IsTotal α (fun a b => d (key a) q ≤ d (key b) q) :=
    ⟨fun a b => le_total _ _⟩
  haveI : IsTrans α (fun a b => d (key a) q ≤ d (key b) q) :=
    ⟨fun a b c hab hbc => le_trans hab hbc⟩
  exact List.Pairwise.sublist (List.take_sublist _ _)
    (List.sorted_insertionSort _ rows)

lemma rankByDistance_pairwise_sim {α : Type} [DecidableEq α]
    (key : α → Embedding) (d : Dist) (q : Embedding) (lim : Nat)
    (rows : List α) :
    (rankByDistance key d q lim rows).Pairwise
      (fun a b => 1 - d (key b) q ≤ 1 - d (key a) q) :=
  (rankByDistance_pairwise key d q lim rows).imp
    (fun h => sub_le_sub_left h 1)

lemma mem_of_mem_rankByDistance {α : Type} [DecidableEq α]
    {key : α → Embedding} {d : Dist} {q : Embedding} {lim : Nat}
    {rows : List α} {a : α} (h : a ∈ rankByDistance key d q lim rows) :
    a ∈ rows :=
  (List.perm_insertionSort _ rows).mem_iff.mp (List.mem_of_mem_take h)

lemma length_rankByDistance_le {α : Type} [DecidableEq α]
    (key : α → Embedding) (d : Dist) (q : Embedding) (lim : Nat)
    (rows : List α) : (rankByDistance key d q lim rows).length ≤ lim := by
  unfold rankByDistance
  rw [List.length_take]
  exact min_le_left _ _

lemma countP_le_one_of_nodup_keys {α β : Type} [DecidableEq β] (key : α → β)
    (l : List α) (h : (l.map key).Nodup) (k : β) (p : α → Bool)
    (hp : ∀ a, p a = true → key a = k) : l.countP p ≤ 1 := by
  induction l with
  | nil => simp
  | cons a l ih =>
    rw [List.map_cons, List.nodup_cons] at h
    rw [List.countP_cons]
    by_cases hpa : p a = true
    · have hzero : l.countP p = 0 := by
        rw [List.countP_eq_zero]
        intro b hb hpb
        exact h.1 (by
          rw [hp a hpa, ← hp b hpb]
          exact List.mem_map_of_mem key hb)
      simp [hpa, hzero]
    · simp only [hpa, if_false, add_zero]
      exact ih h.2

lemma min_one_absorb (a c : ℚ) (hc : 0 ≤ c) :
    min 1 (min 1 a + c) = min 1 (a + c) := by
  rcases le_total a 1 with h | h
  · rw [min_eq_right h]
  · rw [min_eq_left h, min_eq_left (by linarith), min_eq_left (by linarith)]

lemma foldTouch_access_count (nows : List Nat) (r : UserMemoryRow) :
    (foldTouch nows r).access_count = r.access_count + nows.length := by
  induction nows generalizing r with
  | nil => simp [foldTouch]
  | cons now nows ih =>
    show (foldTouch nows (touchMemoryRow now r)).access_count = _
    rw [ih]
    simp [touchMemoryRow]
    omega

lemma foldTouch_importance (nows : List Nat) (r : UserMemoryRow)
    (h : r.importance_score ≤ 1) :
    (foldTouch nows r).importance_score =
      min 1 (r.importance_score + (nows.length : ℚ) * (1/10)) := by
  induction nows generalizing r with
  | nil => simp [foldTouch, min_eq_right h]
  | cons now nows ih =>
    show (foldTouch nows (touchMemoryRow now r)).importance_score = _
    rw [ih (touchMemoryRow now r) (by simp [touchMemoryRow])]
    show min 1 (min 1 (r.importance_score + 1/10) + (nows.length : ℚ) * (1/10)) = _
    rw [min_one_absorb _ _ (by positivity)]
    congr 1
    simp only [List.length_cons]
    push_cast
    ring

lemma foldTouch_id (nows : List Nat) (r : UserMemoryRow) :
    (foldTouch nows r).id = r.id := by
  induction nows generalizing r with
  | nil => rfl
  | cons now nows ih =>
    show (foldTouch nows (touchMemoryRow now r)).id = r.id
    rw [ih]
    rfl

lemma touchMemoryRow_id (now : Nat) (r : UserMemoryRow) :
    (touchMemoryRow now r).id = r.id := rfl

lemma iterate_memory_access_eq_map (memory_id : Nat) (nows : List Nat)
    (table : List UserMemoryRow) :
    iterate_memory_access memory_id nows table =
      table.map (fun r => if r.id == memory_id then foldTouch nows r else r) := by
  induction nows generalizing table with
  | nil => simp [iterate_memory_access, foldTouch]
  | cons now nows ih =>
    show iterate_memory_access memory_id nows
      (update_memory_access memory_id now table) = _
    rw [ih, update_memory_access, List.map_map]
    apply List.map_congr_left
    intro r _
    by_cases h : r.id == memory_id
    · have hid : (touchMemoryRow now r).id = r.id := rfl
      simp [h, Function.comp, hid]
      rfl
    · simp [h, Function.comp]

end MemorySchema

namespace Assembler

lemma totalLen_cons (s : String) (l : List String) :
    totalLen (s :: l) = s.length + totalLen l := by
  simp [totalLen]

lemma totalLen_append (l1 l2 : List String) :
    totalLen (l1 ++ l2) = totalLen l1 + totalLen l2 := by
  simp [totalLen]

lemma length_joinAll (l : List String) : (joinAll l).length = totalLen l := by
  induction l with
  | nil => rfl
  | cons s l ih =>
    show (s ++ joinAll l).length = totalLen (s :: l)
    rw [String.length_append, ih, totalLen_cons]

lemma totalLen_takeWithin_le (b : Nat) (l : List String) :
    totalLen (takeWithin b l) ≤ b := by
  induction l generalizing b with
  | nil => simp [takeWithin, totalLen]
  | cons s rest ih =>
    rw [takeWithin]
    by_cases h : s.length ≤ b
    · rw [if_pos h, totalLen_cons]
      have := ih (b - s.length)
      omega
    · rw [if_neg h]
      simp [totalLen]

lemma length_strTake_le (s : String) (k : Nat) : (strTake s k).length ≤ k := by
  show (s.data.take k).length ≤ k
  rw [List.length_take]
  exact min_le_left _ _

lemma length_hardTruncate_le (B : Nat) (marker s : String)
    (hm : marker.length ≤ B) : (hardTruncate B marker s).length ≤ B := by
  rw [hardTruncate, String.length_append]
  have h1 := length_strTake_le s (B - marker.length)
  omega

lemma mergeTiers_kept1 (B : Nat) (k1 k2 k3 : List String) :
    (mergeTiers B k1 k2 k3).kept1 = k1 := by
  unfold mergeTiers
  split_ifs <;> rfl

lemma mergeTiers_not_hard (B : Nat) (k1 k2 k3 : List String) :
    (mergeTiers B k1 k2 k3).hardTruncated = false := by
  unfold mergeTiers
  split_ifs <;> rfl

lemma totalLen_nil : totalLen [] = 0 := rfl

lemma mergeTiers_totalLen_le (B : Nat) (k1 k2 k3 : List String)
    (h1 : totalLen k1 ≤ B) :
    totalLen ((mergeTiers B k1 k2 k3).kept1 ++ (mergeTiers B k1 k2 k3).kept2
      ++ (mergeTiers B k1 k2 k3).kept3) ≤ B := by
  unfold mergeTiers
  split_ifs with ha hb <;> dsimp only <;>
    simp only [totalLen_append, totalLen_nil] <;> omega

lemma mergeTiers_drop3 (B : Nat) (k1 k2 k3 : List String)
    (h : ¬ totalLen k1 + totalLen k2 + totalLen k3 ≤ B) :
    (mergeTiers B k1 k2 k3).kept3 = [] := by
  unfold mergeTiers
  rw [if_neg h]
  split_ifs <;> rfl

end Assembler

namespace MemorySchema

/-- C5: for every requested limit, search_user_memory returns at most
min(limit, 50) rows, search_conversation_memory at most min(limit, 20) rows
and search_conversation_summaries at most min(limit, 10) rows: each SQL
function ends in LIMIT least(match_count, cap). -/
theorem memory_search_result_caps (d : Dist) (q : Embedding) (uid : Nat)
    (kinds : List String) (cid : String) (thr : ℚ) (lim : Nat)
    (umt : List UserMemoryRow) (cmt : List ConversationMemoryRow)
    (smt : List ConversationSummaryRow) :
    (search_user_memory d q uid kinds thr lim umt).length ≤ min lim 50
    ∧ (search_conversation_memory d q uid cid thr lim cmt).length ≤ min lim 20
    ∧ (search_conversation_summaries d q uid thr lim smt).length ≤ min lim 10 :=
  ⟨length_rankByDistance_le _ _ _ _ _, length_rankByDistance_le _ _ _ _ _,
    length_rankByDistance_le _ _ _ _ _⟩

/-- C4: every row returned by each of the three memory-tier searches belongs
to the requesting user: the user-id equality is part of each WHERE clause, so
no row of a different user is ever returned. -/
theorem memory_search_user_isolation (d : Dist) (q : Embedding) (uid : Nat)
    (kinds : List String) (cid : String) (thr : ℚ) (lim : Nat)
    (umt : List UserMemoryRow) (cmt : List ConversationMemoryRow)
    (smt : List ConversationSummaryRow) :
    (∀ r ∈ search_user_memory d q uid kinds thr lim umt, r.user_id = uid)
    ∧ (∀ r ∈ search_conversation_memory d q uid cid thr lim cmt,
        r.user_id = uid)
    ∧ (∀ r ∈ search_conversation_summaries d q uid thr lim smt,
        r.user_id = uid) := by
  refine ⟨fun r hr => ?_, fun r hr => ?_, fun r hr => ?_⟩
  · have hp := (List.mem_filter.mp (mem_of_mem_rankByDistance hr)).2
    simp only [Bool.and_eq_true, beq_iff_eq, decide_eq_true_eq] at hp
    exact hp.1.1
  · have hp := (List.mem_filter.mp (mem_of_mem_rankByDistance hr)).2
    simp only [Bool.and_eq_true, beq_iff_eq, decide_eq_true_eq] at hp
    exact hp.1.1
  · have hp := (List.mem_filter.mp (mem_of_mem_rankByDistance hr)).2
    simp only [Bool.and_eq_true, beq_iff_eq, decide_eq_true_eq] at hp
    exact hp.1

/-- C2: each similarity search returns rows sorted by descending similarity
(equivalently ascending cosine distance), where similarity is derived as
1 - cosine distance, and every returned row has similarity strictly greater
than the threshold (the hierarchical functions filter on
distance < 1 - threshold, the others on 1 - distance > threshold). -/
theorem similarity_search_ranked_and_thresholded (d : Dist) (q : Embedding)
    (uid : Nat) (kinds : List String) (cid : String) (thr : ℚ) (lim : Nat)
    (tgt : Option Nat) (umt : List UserMemoryRow)
    (cmt : List ConversationMemoryRow) (smt : List ConversationSummaryRow)
    (mt : List MessageRow) (kbt : List KnowledgeBaseRow) :
    ((search_user_memory d q uid kinds thr lim umt).Pairwise
        (fun a b => 1 - d b.embedding q ≤ 1 - d a.embedding q)
      ∧ ∀ r ∈ search_user_memory d q uid kinds thr lim umt,
          1 - d r.embedding q > thr)
    ∧ ((search_conversation_memory d q uid cid thr lim cmt).Pairwise
        (fun a b => 1 - d b.embedding q ≤ 1 - d a.embedding q)
      ∧ ∀ r ∈ search_conversation_memory d q uid cid thr lim cmt,
          1 - d r.embedding q > thr)
    ∧ ((search_conversation_summaries d q uid thr lim smt).Pairwise
        (fun a b => 1 - d b.summary_embedding q ≤ 1 - d a.summary_embedding q)
      ∧ ∀ r ∈ search_conversation_summaries d q uid thr lim smt,
          1 - d r.summary_embedding q > thr)
    ∧ ((search_similar_messages d q thr lim tgt mt).Pairwise
        (fun a b => b.similarity ≤ a.similarity)
      ∧ (∀ x ∈ search_similar_messages d q thr lim tgt mt, x.similarity > thr)
      ∧ ∀ m : MessageRow, (msgToResult d q m).similarity
          = 1 - d (m.embedding.getD []) q)
    ∧ ((search_knowledge_base d q thr lim tgt kbt).Pairwise
        (fun a b => b.similarity ≤ a.similarity)
      ∧ (∀ x ∈ search_knowledge_base d q thr lim tgt kbt, x.similarity > thr)
      ∧ ∀ r : KnowledgeBaseRow, (kbToResult d q r).similarity
          = 1 - d (r.embedding.getD []) q) := by
  refine ⟨⟨rankByDistance_pairwise_sim _ d q _ _, fun r hr => ?_⟩,
    ⟨rankByDistance_pairwise_sim _ d q _ _, fun r hr => ?_⟩,
    ⟨rankByDistance_pairwise_sim _ d q _ _, fun r hr => ?_⟩,
    ⟨List.Pairwise.map _ (fun a b h => h)
        (rankByDistance_pairwise_sim _ d q _ _), fun x hx => ?_, fun m => rfl⟩,
    ⟨List.Pairwise.map _ (fun a b h => h)
        (rankByDistance_pairwise_sim _ d q _ _), fun x hx => ?_, fun r => rfl⟩⟩
  · have hp := (List.mem_filter.mp (mem_of_mem_rankByDistance hr)).2
    simp only [Bool.and_eq_true, decide_eq_true_eq] at hp
    linarith [hp.2]
  · have hp := (List.mem_filter.mp (mem_of_mem_rankByDistance hr)).2
    simp only [Bool.and_eq_true, decide_eq_true_eq] at hp
    linarith [hp.2]
  · have hp := (List.mem_filter.mp (mem_of_mem_rankByDistance hr)).2
    simp only [Bool.and_eq_true, decide_eq_true_eq] at hp
    linarith [hp.2]
  · obtain ⟨m, hm, rfl⟩ := List.mem_map.mp hx
    have hp := (List.mem_filter.mp (mem_of_mem_rankByDistance hm)).2
    simp only [Bool.and_eq_true, decide_eq_true_eq] at hp
    exact hp.2
  · obtain ⟨r, hr, rfl⟩ := List.mem_map.mp hx
    have hp := (List.mem_filter.mp (mem_of_mem_rankByDistance hr)).2
    simp only [Bool.and_eq_true, decide_eq_true_eq] at hp
    exact hp.2

end MemorySchema

namespace MemorySchema

/-- C3: after N calls of update_memory_access (recordMemoryAccess) on a row's
id, the row's access count is the initial count + N and its importance score
is min(1.0, initial + 0.1*N); each single call increments the access count by
exactly 1, caps importance at 1.0 and refreshes updated_at; the operation is
not idempotent. -/
theorem record_memory_access_monotonic (memory_id : Nat) (nows : List Nat)
    (now : Nat) (table : List UserMemoryRow) (r : UserMemoryRow)
    (hr : r ∈ table) (hid : r.id = memory_id)
    (himp : r.importance_score ≤ 1) :
    (∃ r2 ∈ iterate_memory_access memory_id nows table,
        r2.id = memory_id
        ∧ r2.access_count = r.access_count + nows.length
        ∧ r2.importance_score =
            min 1 (r.importance_score + (nows.length : ℚ) * (1/10))
        ∧ r2.importance_score ≤ 1)
    ∧ (∃ r1 ∈ update_memory_access memory_id now table,
        r1.access_count = r.access_count + 1
        ∧ r1.importance_score = min 1 (r.importance_score + 1/10)
        ∧ r1.importance_score ≤ 1
        ∧ r1.updated_at = now)
    ∧ update_memory_access memory_id now
        (update_memory_access memory_id now table)
      ≠ update_memory_access memory_id now table := by
  have hbeq : (r.id == memory_id) = true := by simp [hid]
  refine ⟨⟨foldTouch nows r, ?_, ?_, foldTouch_access_count nows r,
      foldTouch_importance nows r himp, ?_⟩,
    ⟨touchMemoryRow now r, ?_, rfl, rfl, min_le_left _ _, rfl⟩, ?_⟩
  · rw [iterate_memory_access_eq_map]
    have hmm := List.mem_map_of_mem
      (fun s => if s.id == memory_id then foldTouch nows s else s) hr
    simpa [hbeq] using hmm
  · rw [foldTouch_id]
    exact hid
  · rw [foldTouch_importance nows r himp]
    exact min_le_left _ _
  · rw [update_memory_access]
    have hmm := List.mem_map_of_mem
      (fun s => if s.id == memory_id then touchMemoryRow now s else s) hr
    simpa [hbeq] using hmm
  · intro heq
    simp only [update_memory_access, List.map_map] at heq
    have hpt := (List.map_eq_map_iff.mp heq) r hr
    simp only [Function.comp, hbeq, if_true, touchMemoryRow_id] at hpt
    have hacc := congrArg UserMemoryRow.access_count hpt
    simp [touchMemoryRow] at hacc

/-- C10: update_memory_access modifies at most the single user-memory row
with the given id, changing only access_count, importance_score and
updated_at (identity, owner, kind, content, embedding and provenance are
unchanged); with no matching row it is a no-op and no error; the
conversation-memory and conversation-summary tables are never touched. -/
theorem update_memory_access_frame (memory_id now : Nat) (db : MemoryDB) :
    ((db_update_memory_access memory_id now db).conversation_memory_vectors
        = db.conversation_memory_vectors)
    ∧ ((db_update_memory_access memory_id now db).conversation_summaries
        = db.conversation_summaries)
    ∧ (∀ r ∈ db.user_memory_vectors, r.id ≠ memory_id →
        r ∈ (db_update_memory_access memory_id now db).user_memory_vectors)
    ∧ (∀ r ∈ db.user_memory_vectors, r.id = memory_id →
        touchMemoryRow now r ∈
            (db_update_memory_access memory_id now db).user_memory_vectors
        ∧ (touchMemoryRow now r).id = r.id
        ∧ (touchMemoryRow now r).user_id = r.user_id
        ∧ (touchMemoryRow now r).memory_type = r.memory_type
        ∧ (touchMemoryRow now r).content = r.content
        ∧ (touchMemoryRow now r).embedding = r.embedding
        ∧ (touchMemoryRow now r).source_conversation_id
            = r.source_conversation_id
        ∧ (touchMemoryRow now r).created_at = r.created_at)
    ∧ ((∀ r ∈ db.user_memory_vectors, r.id ≠ memory_id) →
        db_update_memory_access memory_id now db = db)
    ∧ ((db.user_memory_vectors.map (fun r => r.id)).Nodup →
        db.user_memory_vectors.countP (fun r => r.id == memory_id) ≤ 1) := by
  refine ⟨rfl, rfl, fun r hr hne => ?_,
    fun r hr hid => ⟨?_, rfl, rfl, rfl, rfl, rfl, rfl, rfl⟩,
    fun hall => ?_, fun hnd => ?_⟩
  · have hbeq : (r.id == memory_id) = false := by simp [hne]
    have hmm := List.mem_map_of_mem
      (fun s => if s.id == memory_id then touchMemoryRow now s else s) hr
    simpa [db_update_memory_access, update_memory_access, hbeq] using hmm
  · have hbeq : (r.id == memory_id) = true := by simp [hid]
    have hmm := List.mem_map_of_mem
      (fun s => if s.id == memory_id then touchMemoryRow now s else s) hr
    simpa [db_update_memory_access, update_memory_access, hbeq] using hmm
  · have hmap : update_memory_access memory_id now db.user_memory_vectors
        = db.user_memory_vectors := by
      rw [update_memory_access]
      conv_rhs => rw [← List.map_id db.user_memory_vectors]
      apply List.map_congr_left
      intro s hs
      have hbeq : (s.id == memory_id) = false := by simp [hall s hs]
      simp [hbeq]
    show { db with
      user_memory_vectors :=
        update_memory_access memory_id now db.user_memory_vectors } = db
    rw [hmap]
  · exact countP_le_one_of_nodup_keys (fun s => s.id) _ hnd memory_id _
      (fun a ha => by simpa using ha)

end MemorySchema

namespace MemorySchema

lemma sqlEqUuid_eq {a b : Option Nat} (h : sqlEqUuid a b = true) : a = b := by
  cases a with
  | none => simp [sqlEqUuid] at h
  | some x =>
    cases b with
    | none => simp [sqlEqUuid] at h
    | some y =>
      simp only [sqlEqUuid, beq_iff_eq] at h
      rw [h]

lemma updateSummary_map_cid (cid s : String) (emb : Embedding) (now : Nat)
    (table : List ConversationSummaryRow) :
    (updateSummary cid s emb now table).map (fun r => r.conversation_id)
      = table.map (fun r => r.conversation_id) := by
  rw [updateSummary, List.map_map]
  apply List.map_congr_left
  intro s0 _
  by_cases hc : (s0.conversation_id == cid) = true <;>
    simp [Function.comp, hc]

/-- C6: at most one ConversationSummary row per (user, conversation) pair in
every reachable state: the empty store satisfies the schema's UNIQUE
constraint on conversation_id, inserting a summary preserves it (a duplicate
key is rejected), updating a summary preserves it (the key is not rewritten),
and the constraint implies at most one row per (user, conversation). -/
theorem conversation_summary_unique_invariant (r : ConversationSummaryRow)
    (cid s : String) (emb : Embedding) (now : Nat)
    (table t2 : List ConversationSummaryRow) (h : summariesUnique table) :
    summariesUnique ([] : List ConversationSummaryRow)
    ∧ (insertSummary r table = Except.ok t2 → summariesUnique t2)
    ∧ summariesUnique (updateSummary cid s emb now table)
    ∧ atMostOnePerUserConv table := by
  refine ⟨by simp [summariesUnique], fun hok => ?_, ?_, ?_⟩
  · rw [insertSummary] at hok
    by_cases hany :
        (table.any fun s0 => s0.conversation_id == r.conversation_id) = true
    · rw [if_pos hany] at hok
      exact absurd hok (by simp)
    · rw [if_neg hany] at hok
      have ht2 : table ++ [r] = t2 := by
        injection hok
      rw [← ht2]
      show ((table ++ [r]).map fun s0 => s0.conversation_id).Nodup
      rw [List.map_append, List.nodup_append]
      refine ⟨h, by simp, ?_⟩
      intro a ha hb
      obtain ⟨s0, hs0, rfl⟩ := List.mem_map.mp ha
      have hcid : s0.conversation_id = r.conversation_id := by
        simpa using hb
      apply hany
      rw [List.any_eq_true]
      exact ⟨s0, hs0, by simp [hcid]⟩
  · show ((updateSummary cid s emb now table).map
      fun s0 => s0.conversation_id).Nodup
    rw [updateSummary_map_cid]
    exact h
  · intro u c
    have h2 : (table.map fun s0 => s0.conversation_id).Nodup := h
    apply countP_le_one_of_nodup_keys (fun s0 => s0.conversation_id) table h2 c
    intro a ha
    simp only [Bool.and_eq_true, beq_iff_eq] at ha
    exact ha.2

/-- C9: every row returned by search_knowledge_base belongs to the requesting
user or has a NULL owner; a NULL-owner entry passes the ownership filter for
every requesting user, a NULL requesting user id passes it for every row, and
the search is therefore not strictly user-isolated (a concrete global row is
returned to a user it does not belong to). -/
theorem knowledge_base_visibility (d : Dist) (q : Embedding) (thr : ℚ)
    (lim : Nat) (tgt : Option Nat) (kbt : List KnowledgeBaseRow) :
    (∀ r ∈ search_knowledge_base_rows d q thr lim tgt kbt,
        tgt = none ∨ r.user_id = tgt ∨ r.user_id = none)
    ∧ (∀ t : Option Nat, ∀ r : KnowledgeBaseRow, r.user_id = none →
        kbUserFilter t r = true)
    ∧ (∀ r : KnowledgeBaseRow, kbUserFilter none r = true)
    ∧ (∃ (row : KnowledgeBaseRow) (table : List KnowledgeBaseRow)
        (target : Nat),
        row ∈ search_knowledge_base_rows SampleData.dZero [] 0 5
          (some target) table
        ∧ row.user_id ≠ some target) := by
  refine ⟨fun r hr => ?_, fun t r h => ?_, fun r => ?_, ?_⟩
  · have hp := (List.mem_filter.mp (mem_of_mem_rankByDistance hr)).2
    simp only [Bool.and_eq_true] at hp
    have hu := hp.1.1
    rw [kbUserFilter] at hu
    simp only [Bool.or_eq_true] at hu
    rcases hu with (hn | he) | hrn
    · exact Or.inl (Option.isNone_iff_eq_none.mp hn)
    · exact Or.inr (Or.inl (sqlEqUuid_eq he))
    · exact Or.inr (Or.inr (Option.isNone_iff_eq_none.mp hrn))
  · simp [kbUserFilter, h]
  · simp [kbUserFilter]
  · refine ⟨SampleData.kb1, [SampleData.kb1], 1, ?_, by simp [SampleData.kb1]⟩
    show SampleData.kb1 ∈ rankByDistance _ _ _ _ _
    norm_num [rankByDistance, kbUserFilter, sqlEqUuid, SampleData.dZero,
      SampleData.kb1, List.insertionSort, List.orderedInsert]

end MemorySchema

namespace TurnCore

/-- C1: with agent mode off, processTurn always returns serviceUsed = null,
no tool-backed agent is dispatched, and the Gmail-agent flag the frontend
sends (useGmailAgent, chat.tsx line 133) is false regardless of the selected
apps and the message text. -/
theorem agent_mode_off_never_dispatches (message userId conversationId : String)
    (allowedApps selectedApps : List String) (directAnswer : String)
    (agentAnswer : Service → String) :
    (processTurn message userId conversationId false allowedApps directAnswer
        agentAnswer).serviceUsed = none
    ∧ (processTurn message userId conversationId false allowedApps
        directAnswer agentAnswer).text = directAnswer
    ∧ dispatchedAgents message false allowedApps = []
    ∧ routeIntent false message allowedApps = none
    ∧ ChatFrontend.useGmailAgent false selectedApps = false
    ∧ (ChatFrontend.buildRequestBody message conversationId false
        selectedApps).use_gmail_agent = false :=
  ⟨rfl, rfl, rfl, rfl, rfl, rfl⟩

end TurnCore

namespace ChatFrontend

/-- C7: for every exception raised while handling a turn, the text delivered
to the end user is the fixed user-safe apology with metadata type error, and
it does not depend on the exception text; the API route likewise maps a
backend error status and a thrown exception to fixed bodies that do not
contain the raw error text. -/
theorem turn_errors_user_safe (conversationId userId auth : String) (now : Nat)
    (e e2 statusText errorData msg : String) (st : Nat) :
    ((handleSubmitAssistantMessage conversationId userId now
        (FetchOutcome.exn e)).content =
      "Sorry, I encountered an error processing your request. Please try again.")
    ∧ ((handleSubmitAssistantMessage conversationId userId now
        (FetchOutcome.exn e)).metadata_type = some "error")
    ∧ (handleSubmitAssistantMessage conversationId userId now
        (FetchOutcome.exn e)
      = handleSubmitAssistantMessage conversationId userId now
        (FetchOutcome.exn e2))
    ∧ (handleSubmitAssistantMessage conversationId userId now
        (FetchOutcome.notOk statusText errorData)
      = handleSubmitAssistantMessage conversationId userId now
        (FetchOutcome.exn e))
    ∧ (POST true (some auth) (BackendOutcome.httpError st errorData)
        = { status := st, body := "Backend service error" })
    ∧ (POST true (some auth) (BackendOutcome.exn msg)
        = { status := 500, body := "Internal server error" }) :=
  ⟨rfl, rfl, rfl, rfl, rfl, rfl⟩

end ChatFrontend

namespace Assembler

/-- C8: the Context Assembler's output never exceeds the total character
budget; cross-tier reconciliation drops tier-3 content first and never cuts
tier 1; the single tier-1 hard truncation happens exactly when the top tier-1
match alone exceeds the total budget, and then the oversized item is cut to
the budget with the explicit marker appended and the lower tiers contribute
nothing. -/
theorem context_assembler_budget_and_precedence (totalBudget b1 b2 b3 : Nat)
    (marker : String) (t1 t2 t3 : List String)
    (hm : marker.length ≤ totalBudget) :
    (assembleContext totalBudget b1 b2 b3 marker t1 t2 t3).length ≤ totalBudget
    ∧ ((assembleParts totalBudget b1 b2 b3 marker t1 t2 t3).hardTruncated = true
        ↔ ∃ top rest, t1 = top :: rest ∧ totalBudget < top.length)
    ∧ ((assembleParts totalBudget b1 b2 b3 marker t1 t2 t3).hardTruncated
          = false →
        (assembleParts totalBudget b1 b2 b3 marker t1 t2 t3).kept1
          = takeWithin (min b1 totalBudget) t1)
    ∧ ((assembleParts totalBudget b1 b2 b3 marker t1 t2 t3).hardTruncated
          = true →
        (assembleParts totalBudget b1 b2 b3 marker t1 t2 t3).kept2 = []
        ∧ (assembleParts totalBudget b1 b2 b3 marker t1 t2 t3).kept3 = []
        ∧ ∀ top rest, t1 = top :: rest →
            (assembleParts totalBudget b1 b2 b3 marker t1 t2 t3).kept1
              = [hardTruncate totalBudget marker top])
    ∧ (∀ k1 k2 k3 : List String,
        (mergeTiers totalBudget k1 k2 k3).kept1 = k1)
    ∧ (∀ k1 k2 k3 : List String,
        ¬ totalLen k1 + totalLen k2 + totalLen k3 ≤ totalBudget →
        (mergeTiers totalBudget k1 k2 k3).kept3 = []) := by
  refine ⟨?_, ?_, ?_, ?_, fun k1 k2 k3 => mergeTiers_kept1 _ _ _ _,
    fun k1 k2 k3 hov => mergeTiers_drop3 _ _ _ _ hov⟩
  · rw [assembleContext, length_joinAll]
    cases t1 with
    | nil =>
      rw [assembleParts]
      exact mergeTiers_totalLen_le _ _ _ _ (by simp [totalLen])
    | cons top rest =>
      rw [assembleParts]
      by_cases htop : totalBudget < top.length
      · rw [if_pos htop]
        simp only [List.append_nil]
        rw [totalLen_cons, totalLen_nil]
        have := length_hardTruncate_le totalBudget marker top hm
        omega
      · rw [if_neg htop]
        exact mergeTiers_totalLen_le _ _ _ _
          (le_trans (totalLen_takeWithin_le _ _) (min_le_right _ _))
  · cases t1 with
    | nil =>
      rw [assembleParts]
      simp only [mergeTiers_not_hard]
      constructor
      · intro hfalse
        exact absurd hfalse (by simp)
      · rintro ⟨top, rest, htop, -⟩
        exact absurd htop (by simp)
    | cons top rest =>
      rw [assembleParts]
      by_cases htop : totalBudget < top.length
      · rw [if_pos htop]
        exact ⟨fun _ => ⟨top, rest, rfl, htop⟩, fun _ => rfl⟩
      · rw [if_neg htop]
        simp only [mergeTiers_not_hard]
        constructor
        · intro hfalse
          exact absurd hfalse (by simp)
        · rintro ⟨top2, rest2, heq, hlen⟩
          injection heq with h1 h2
          exact absurd (h1 ▸ hlen) htop
  · intro hnh
    cases t1 with
    | nil =>
      rw [assembleParts, takeWithin, mergeTiers_kept1]
    | cons top rest =>
      rw [assembleParts] at hnh ⊢
      by_cases htop : totalBudget < top.length
      · rw [if_pos htop] at hnh
        exact absurd hnh (by simp)
      · rw [if_neg htop] at hnh ⊢
        rw [mergeTiers_kept1]
  · intro hh
    cases t1 with
    | nil =>
      rw [assembleParts] at hh
      rw [mergeTiers_not_hard] at hh
      exact absurd hh (by simp)
    | cons top rest =>
      rw [assembleParts] at hh ⊢
      by_cases htop : totalBudget < top.length
      · rw [if_pos htop] at hh ⊢
        refine ⟨rfl, rfl, fun top2 rest2 heq => ?_⟩
        injection heq with h1 h2
        rw [h1]
      · rw [if_neg htop] at hh
        rw [mergeTiers_not_hard] at hh
        exact absurd hh (by simp)

end Assembler

namespace MemorySchema

/-- Witness for C2 at a concrete search instance. -/
theorem similarity_search_ranked_and_thresholded_witness :
    SampleData.um1 ∈ search_user_memory SampleData.dHead [] 7 [ "fact" ] 0 5
      [SampleData.um1]
    ∧ (1 : ℚ) - SampleData.dHead SampleData.um1.embedding [] > 0 := by
  have hmem : SampleData.um1 ∈ search_user_memory SampleData.dHead [] 7
      [ "fact" ] 0 5 [SampleData.um1] := by
    norm_num [search_user_memory, rankByDistance, SampleData.dHead,
      SampleData.um1, List.insertionSort, List.orderedInsert]
  exact ⟨hmem, (similarity_search_ranked_and_thresholded SampleData.dHead []
    7 [ "fact" ] "c1" 0 5 none [SampleData.um1] [] [] [] []).1.2
    SampleData.um1 hmem⟩

/-- Witness for C4 at a concrete search instance. -/
theorem memory_search_user_isolation_witness :
    SampleData.um1 ∈ search_user_memory SampleData.dHead [] 7 [ "fact" ] 0 5
      [SampleData.um1]
    ∧ SampleData.um1.user_id = 7 := by
  have hmem : SampleData.um1 ∈ search_user_memory SampleData.dHead [] 7
      [ "fact" ] 0 5 [SampleData.um1] := by
    norm_num [search_user_memory, rankByDistance, SampleData.dHead,
      SampleData.um1, List.insertionSort, List.orderedInsert]
  exact ⟨hmem, (memory_search_user_isolation SampleData.dHead [] 7 [ "fact" ]
    "c1" 0 5 [SampleData.um1] [] []).1 SampleData.um1 hmem⟩

/-- Witness for C3 at a concrete instance: two recorded accesses. -/
theorem record_memory_access_monotonic_witness :
    (SampleData.um1 ∈ [SampleData.um1] ∧ SampleData.um1.id = 1
      ∧ SampleData.um1.importance_score ≤ 1)
    ∧ ∃ r2 ∈ iterate_memory_access 1 [5, 6] [SampleData.um1],
        r2.id = 1
        ∧ r2.access_count = SampleData.um1.access_count
            + ([5, 6] : List Nat).length
        ∧ r2.importance_score = min 1 (SampleData.um1.importance_score
            + ((([5, 6] : List Nat).length : ℚ)) * (1/10))
        ∧ r2.importance_score ≤ 1 := by
  have h1 : SampleData.um1 ∈ [SampleData.um1] := List.mem_singleton.mpr rfl
  have h2 : SampleData.um1.id = 1 := rfl
  have h3 : SampleData.um1.importance_score ≤ 1 := by
    norm_num [SampleData.um1]
  exact ⟨⟨h1, h2, h3⟩, (record_memory_access_monotonic 1 [5, 6] 9
    [SampleData.um1] SampleData.um1 h1 h2 h3).1⟩

/-- Witness for C6 at a concrete instance: inserting a second conversation's
summary into a store holding one summary. -/
theorem conversation_summary_unique_invariant_witness :
    summariesUnique [SampleData.cs1]
    ∧ summariesUnique [SampleData.cs1, SampleData.cs2] := by
  have h : summariesUnique [SampleData.cs1] := by
    simp [summariesUnique]
  have hins : insertSummary SampleData.cs2 [SampleData.cs1]
      = Except.ok [SampleData.cs1, SampleData.cs2] := by
    simp [insertSummary, SampleData.cs1, SampleData.cs2]
  exact ⟨h, (conversation_summary_unique_invariant SampleData.cs2 "c1" "s2"
    [0] 3 [SampleData.cs1] [SampleData.cs1, SampleData.cs2] h).2.1 hins⟩

/-- Witness for C9 at a concrete instance: a NULL-owner knowledge-base row is
returned to requesting user 1. -/
theorem knowledge_base_visibility_witness :
    SampleData.kb1 ∈ search_knowledge_base_rows SampleData.dZero [] 0 5
      (some 1) [SampleData.kb1]
    ∧ ((some 1 : Option Nat) = none ∨ SampleData.kb1.user_id = some 1
        ∨ SampleData.kb1.user_id = none) := by
  have hmem : SampleData.kb1 ∈ search_knowledge_base_rows SampleData.dZero []
      0 5 (some 1) [SampleData.kb1] := by
    norm_num [search_knowledge_base_rows, rankByDistance, kbUserFilter,
      sqlEqUuid, SampleData.dZero, SampleData.kb1, List.insertionSort,
      List.orderedInsert]
  exact ⟨hmem, (knowledge_base_visibility SampleData.dZero [] 0 5 (some 1)
    [SampleData.kb1]).1 SampleData.kb1 hmem⟩

/-- Witness for C10 at a concrete instance. -/
theorem update_memory_access_frame_witness :
    (SampleData.um1 ∈ SampleData.db1.user_memory_vectors
      ∧ SampleData.um1.id = 1)
    ∧ touchMemoryRow 9 SampleData.um1 ∈
        (db_update_memory_access 1 9 SampleData.db1).user_memory_vectors := by
  have h1 : SampleData.um1 ∈ SampleData.db1.user_memory_vectors := by
    simp [SampleData.db1]
  have h2 : SampleData.um1.id = 1 := rfl
  exact ⟨⟨h1, h2⟩, ((update_memory_access_frame 1 9 SampleData.db1).2.2.2.1
    SampleData.um1 h1 h2).1⟩

end MemorySchema

namespace Assembler

/-- Witness for C8 at a concrete instance. -/
theorem context_assembler_budget_and_precedence_witness :
    ((".." : String)).length ≤ 10
    ∧ (assembleContext 10 4 4 4 ".." [ "abc" ] [ "de" ] [ "x" ]).length
        ≤ 10 := by
  have hm : ((".." : String)).length ≤ 10 := by decide
  exact ⟨hm, (context_assembler_budget_and_precedence 10 4 4 4 ".."
    [ "abc" ] [ "de" ] [ "x" ] hm).1⟩

end Assembler
